import Mathlib

/-!
Verification of the skribbl-draw repository (app.py, drawing.py,
skribbl_helper.py) against its natural-language specification.

The Python sources are shallowly embedded below.  Pixels are RGB triples of
naturals (numpy uint8 values never overflow here: the code only compares
them), screen coordinates are integers, rasters are total functions from
coordinates to pixels together with explicit height/width.  Floating-point
resampling (PIL LANCZOS) and the float duration arithmetic of the replay
engine are not value-relevant to any claim: resampled images are taken as
parameters, and move durations are elided from the mouse-event alphabet.
-/

set_option autoImplicit false

namespace Skribbl

/-- An RGB pixel, `(r, g, b)`. -/
abbrev Pixel := Nat × Nat × Nat

/-- A raster image: height, width, and a pixel function (row, column). -/
structure Img where
  h : Nat
  w : Nat
  pix : Nat → Nat → Pixel

/-- A screen box `(x1, y1, x2, y2)`, as the 4-tuples used throughout the
Python sources. -/
structure Box where
  x1 : Int
  y1 : Int
  x2 : Int
  y2 : Int
deriving DecidableEq, Repr

/-- Constant `skribbl_helper.COLOUR_X_START`. -/
def COLOUR_X_START : Nat := 54
/-- Constant `skribbl_helper.COLOUR_HEIGHT`. -/
def COLOUR_HEIGHT : Nat := 24
/-- Constant `skribbl_helper.COLOUR_WIDTH`. -/
def COLOUR_WIDTH : Nat := 24
/-- Constant `skribbl_helper.NUM_COLOURS`. -/
def NUM_COLOURS : Nat := 13

/-- Predicate `skribbl_helper.is_light`: all three channels strictly above 220. -/
def is_light (p : Pixel) : Bool :=
  decide (220 < p.1 ∧ 220 < p.2.1 ∧ 220 < p.2.2)

/-- Number of near-white pixels in row `y` (`np.mean(is_light(row))`
numerator). -/
def rowLightCount (img : Img) (y : Nat) : Nat :=
  (List.range img.w).countP (fun x => is_light (img.pix y x))

/-- Number of near-white pixels in the full-height column `x`.  Note the
source scans columns of the whole crop (`img[:, x:x+1, :]`), not only the
rows between `top` and `bottom`. -/
def colLightCount (img : Img) (x : Nat) : Nat :=
  (List.range img.h).countP (fun y => is_light (img.pix y x))

/-- The row test `light_fraction < 0.05` of `find_canvas`, cleared of the
division: `count / w < 1/20  ↔  20*count < w`.  (For an empty row numpy's
mean is NaN and `NaN < 0.05` is false; `20*0 < 0` is false too.) -/
def rowIsBg (img : Img) (y : Nat) : Bool :=
  decide (20 * rowLightCount img y < img.w)

/-- The column test `light_fraction < 0.05` of `find_canvas`. -/
def colIsBg (img : Img) (x : Nat) : Bool :=
  decide (20 * colLightCount img x < img.h)

/-- Loop `while lo < hi: if bg lo then lo += 1 else break`, with explicit fuel
`hi - lo` so that the function computes by structural recursion. -/
def scanUpAux (bg : Nat → Bool) : Nat → Nat → Nat
  | 0, lo => lo
  | fuel + 1, lo => if bg lo then scanUpAux bg fuel (lo + 1) else lo

/-- Inward scan from the low edge (top/left loops of `find_canvas`). -/
def scanUp (bg : Nat → Bool) (lo hi : Nat) : Nat :=
  scanUpAux bg (hi - lo) lo

/-- Loop `while hi > lo: if bg (hi-1) then hi -= 1 else break`, fuelled. -/
def scanDownAux (bg : Nat → Bool) : Nat → Nat → Nat
  | 0, hi => hi
  | fuel + 1, hi => if bg (hi - 1) then scanDownAux bg fuel (hi - 1) else hi

/-- Inward scan from the high edge (bottom/right loops of `find_canvas`). -/
def scanDown (bg : Nat → Bool) (lo hi : Nat) : Nat :=
  scanDownAux bg (hi - lo) hi

/-- The `top` computed by `find_canvas`. -/
def canvasTop (img : Img) : Nat := scanUp (rowIsBg img) 0 img.h

/-- The `bottom` computed by `find_canvas` (scanned after `top`, bounded
below by it). -/
def canvasBottom (img : Img) : Nat := scanDown (rowIsBg img) (canvasTop img) img.h

/-- The `left` computed by `find_canvas`. -/
def canvasLeft (img : Img) : Nat := scanUp (colIsBg img) 0 img.w

/-- The `right` computed by `find_canvas`. -/
def canvasRight (img : Img) : Nat := scanDown (colIsBg img) (canvasLeft img) img.w

/-- The crop `img[top:bottom, left:right]`. -/
def cropImg (img : Img) : Img :=
  ⟨canvasBottom img - canvasTop img, canvasRight img - canvasLeft img,
   fun y x => img.pix (canvasTop img + y) (canvasLeft img + x)⟩

/-- Function `skribbl_helper.get_colours`: two rows of `NUM_COLOURS` swatches,
anchored at the bottom of `img`; the colour is the pixel at the swatch's
center, the click box the swatch rectangle shifted by `(xo, yo)`.  The
loops `for y in range(2): for x in range(NUM_COLOURS)` append in order. -/
def get_colours (img : Img) (xo yo : Int) : List (Pixel × Box) :=
  (List.range 2).flatMap (fun y =>
    (List.range NUM_COLOURS).map (fun x =>
      let x1 : Nat := COLOUR_X_START + x * COLOUR_WIDTH
      let x2 : Nat := COLOUR_X_START + (x + 1) * COLOUR_WIDTH
      let y1 : Nat := img.h - (y + 1) * COLOUR_HEIGHT
      let y2 : Nat := img.h - y * COLOUR_HEIGHT
      (img.pix (y1 + COLOUR_HEIGHT / 2) (x1 + COLOUR_WIDTH / 2),
       ⟨xo + x1, yo + y1, xo + x2, yo + y2⟩)))

/-- Function `skribbl_helper.find_canvas`: the absolute canvas box and the swatch
list of the crop.  (The diagnostic `canvas.png` dump is I/O instrumentation
and not modelled.)  Note the source passes `x_offset, y_offset` — the snip
origin, not the canvas origin — to `get_colours`. -/
def find_canvas (img : Img) (xo yo : Int) : Box × List (Pixel × Box) :=
  (⟨xo + canvasLeft img, yo + canvasTop img,
    xo + canvasRight img, yo + canvasBottom img⟩,
   get_colours (cropImg img) xo yo)

/-! ### Palette quantizer (`skribbl_helper.quantise`) -/

/-- Squared Euclidean distance between two RGB triples.  `quantise` measures
distances between the channel values divided by `255.0`; dividing every
coordinate by the same positive constant scales all squared distances by
`1/255²` and so preserves the nearest-neighbour choice, which is all the
code uses the distances for. -/
def distSq (p q : Pixel) : Int :=
  ((p.1 : Int) - q.1) ^ 2 + ((p.2.1 : Int) - q.2.1) ^ 2 + ((p.2.2 : Int) - q.2.2) ^ 2

/-- Index scan of the nearest palette entry: carries the running best index
and best squared distance, keeping the earlier index on ties. -/
def nearestIdxAux (p : Pixel) : List Pixel → Nat → Nat → Int → Nat
  | [], _, best, _ => best
  | c :: rest, i, best, bestD =>
    if distSq p c < bestD then nearestIdxAux p rest (i + 1) i (distSq p c)
    else nearestIdxAux p rest (i + 1) best bestD

/-- Model of `KDTree(palette).query(pixel)`: the index of the nearest palette colour
(exact nearest neighbour; a k-d tree only accelerates the search). -/
def nearestIdx (p : Pixel) : List Pixel → Nat
  | [] => 0
  | c :: cs => nearestIdxAux p cs 1 0 (distSq p c)

/-- Assignment `matched_colors = np.array(palette)[idxs]` applied pixelwise: every
pixel is replaced by its nearest palette colour.  In the source the arrays
fed to `KDTree` are named `image_lab` / `palette_lab` and the comment says
"KDTree in Lab space", but the `rgb2lab` conversions are commented out, so
the search runs on (scaled) RGB values. -/
def quantisePixels (palette : List Pixel) (img : Img) : Img :=
  ⟨img.h, img.w, fun y x => palette.getD (nearestIdx (img.pix y x) palette) (0, 0, 0)⟩

/-- PIL `Image.resize(.., Image.Resampling.NEAREST)`: point sampling at the
centre of each destination pixel, `src = ⌊(dst + 1/2) · srcSize/dstSize⌋`,
clamped into range. -/
def resizeNearest (img : Img) (W H : Nat) : Img :=
  ⟨H, W, fun y x =>
    img.pix (min (img.h - 1) ((2 * y + 1) * img.h / (2 * H)))
            (min (img.w - 1) ((2 * x + 1) * img.w / (2 * W)))⟩

/-- Function `skribbl_helper.quantise`.  The source first shrinks `image` by the
factor `0.2` with LANCZOS resampling — floating-point convolution, taken
here as the parameter `small` — then maps every pixel of the shrunken image
to its nearest palette colour and resizes the result back to the original
size with NEAREST resampling.  The `mask` argument of the source is unused
by the function, as here. -/
def quantise (palette : List Pixel) (img : Img) (small : Img) : Img :=
  resizeNearest (quantisePixels palette small) img.w img.h

/-- An RGBA raster. -/
structure RGBAImg where
  h : Nat
  w : Nat
  pix : Nat → Nat → Nat × Nat × Nat × Nat

/-- A boolean raster (the transparency mask). -/
structure Mask where
  h : Nat
  w : Nat
  m : Nat → Nat → Bool

/-- Mask `mask = np.array(downscaled)[:, :, 3] == 0` in `create_brush_strokes`:
the transparency mask of the downscaled RGBA image. -/
def alphaMask (img : RGBAImg) : Mask :=
  ⟨img.h, img.w, fun y x => decide ((img.pix y x).2.2.2 = 0)⟩

/-! ### Stroke planner (`app.SimpleApp._set_content` and
`drawing.StrokeDrawing.set_strokes`) -/

/-- A polygon point `(x, y)` (numpy integer pair). -/
abbrev Point := Int × Int

/-- The flattening loop of `set_strokes`: one `(colour, polygon)` entry per
polygon of every per-colour group, in iteration order. -/
def flattenStrokes (groups : List (Pixel × List (List Point))) :
    List (Pixel × List Point) :=
  groups.flatMap (fun g => g.2.map (fun poly => (g.1, poly)))

/-- The stroke planning done by `_set_content`: the per-colour polygon
groups returned by `create_brush_strokes` are truncated to the first 40
entries (`[:40]`) and then handed to `set_strokes`, which flattens them. -/
def plannedStrokes (groups : List (Pixel × List (List Point))) :
    List (Pixel × List Point) :=
  flattenStrokes (groups.take 40)

/-! ### Stroke replay engine (`drawing.StrokeDrawing`)

The engine lives on a worker thread and mutates only its own fields; each
slot invocation is modelled as a pure state transformer.  Mouse primitives
issued to the injected `MouseControl` are collected in an event list; the
float `duration` argument of `mouse.move` (computed from the Euclidean
segment length and the velocity) is elided, since no claim depends on it.
`update_progress` / `progress_signal` emissions are status strings, not
mouse primitives, and are not modelled. -/

/-- One primitive issued to the mouse actuator. -/
inductive MouseEvent where
  | move (x y : Int)
  | click
  | press
  | release
deriving DecidableEq, Repr

/-- The mutable fields of `StrokeDrawing` relevant to the claims. -/
structure EngineState where
  canvas : Box
  colours : List (Pixel × Box)
  strokes : List (Pixel × List Point)
  index : Nat
  strokeIndex : Nat
  activeColour : Option Pixel
  isDrawing : Bool
  resetFlag : Bool
  mousePress : Bool
  velocity : Int
deriving DecidableEq, Repr

/-- Initial `StrokeDrawing.__init__` field values. -/
def initState : EngineState :=
  ⟨⟨0, 0, 0, 0⟩, [], [], 0, 0, none, false, false, false, 100⟩

/-- A Python exception escaping a `draw` invocation. -/
inductive DrawErr where
  | colourNotFound (c : Pixel)
  | indexError
deriving DecidableEq, Repr

/-- Result of one `draw` invocation: either normal completion with the new
state, the emitted mouse primitives and the boolean payload of
`request_next_stroke`, or an escaped exception together with the state and
the primitives already produced before the raise. -/
inductive DrawResult where
  | ok (s : EngineState) (events : List MouseEvent) (cont : Bool)
  | err (e : DrawErr) (s : EngineState) (events : List MouseEvent)
deriving DecidableEq, Repr

/-- The state carried by a `DrawResult`. -/
def DrawResult.state : DrawResult → EngineState
  | .ok s _ _ => s
  | .err _ s _ => s

/-- The mouse primitives carried by a `DrawResult`. -/
def DrawResult.events : DrawResult → List MouseEvent
  | .ok _ e _ => e
  | .err _ _ e => e

/-- The exception carried by a `DrawResult`, if any. -/
def DrawResult.error : DrawResult → Option DrawErr
  | .ok _ _ _ => none
  | .err e _ _ => some e

/-- Python `dict` assignment `d[k] = v`: replace the value of an existing
key, else append (insertion order preserved). -/
def dictInsert (m : List (Pixel × Box)) (k : Pixel) (v : Box) :
    List (Pixel × Box) :=
  if m.any (fun e => e.1 == k) then
    m.map (fun e => if e.1 == k then (k, v) else e)
  else m ++ [(k, v)]

/-- Method `StrokeDrawing._reset`. -/
def resetFields (s : EngineState) : EngineState :=
  { s with index := 0, strokeIndex := 0, activeColour := none, resetFlag := false }

/-- Slot `StrokeDrawing.reset`. -/
def reset (s : EngineState) : EngineState :=
  if s.isDrawing then { s with resetFlag := true, isDrawing := false }
  else resetFields s

/-- Slot `StrokeDrawing.set_strokes`: no-op while drawing, otherwise rebuild the
flat stroke list from the per-colour polygon groups. -/
def set_strokes (s : EngineState) (groups : List (Pixel × List (List Point))) :
    EngineState :=
  if s.isDrawing then s else { s with strokes := flattenStrokes groups }

/-- Slot `StrokeDrawing.set_canvas`: no-op while drawing. -/
def set_canvas (s : EngineState) (c : Box) : EngineState :=
  if s.isDrawing then s else { s with canvas := c }

/-- Slot `StrokeDrawing.set_colours`: no-op while drawing, otherwise clear the
mapping and insert every `(colour, clickBox)` pair in order. -/
def set_colours (s : EngineState) (cs : List (Pixel × Box)) : EngineState :=
  if s.isDrawing then s
  else { s with colours := cs.foldl (fun m c => dictInsert m c.1 c.2) [] }

/-- Slot `StrokeDrawing.stop`: `release_mouse` (a `release` primitive and the
press flag cleared) and the drawing flag cleared; indices untouched. -/
def stop (s : EngineState) : EngineState × List MouseEvent :=
  ({ s with mousePress := false, isDrawing := false }, [.release])

/-- The click point of `select_colour`: the centre of the swatch's click
box (Python `//` is floor division). -/
def swatchCenter (b : Box) : Int × Int :=
  (b.x1 + Int.fdiv (b.x2 - b.x1) 2, b.y1 + Int.fdiv (b.y2 - b.y1) 2)

/-- The segment part of `StrokeDrawing.draw`, after the colour check:
fetch the current and next polygon vertex (wrapping to vertex 0 on the
final segment), move to the start, press if not pressed, move to the end,
then either finish the polygon (zero the point index, advance the stroke
index, release) or advance the point index; finally emit
`request_next_stroke`.  An out-of-range point index raises `IndexError`.
`evs0` carries the primitives already emitted by `select_colour`. -/
def drawSegment (s : EngineState) (evs0 : List MouseEvent)
    (points : List Point) : DrawResult :=
  match points[s.strokeIndex]? with
  | none => .err .indexError s evs0
  | some start =>
    let isFinal : Bool := decide (points.length ≤ s.strokeIndex + 1)
    match (if isFinal then points[0]? else points[s.strokeIndex + 1]?) with
    | none => .err .indexError s evs0
    | some stop =>
      let evs1 := evs0 ++ [.move (s.canvas.x1 + start.1) (s.canvas.y1 + start.2)]
      let s1 := if s.mousePress then s else { s with mousePress := true }
      let evs2 := if s.mousePress then evs1 else evs1 ++ [.press]
      let evs3 := evs2 ++ [.move (s.canvas.x1 + stop.1) (s.canvas.y1 + stop.2)]
      let s2 := if isFinal then
          { s1 with strokeIndex := 0, index := s1.index + 1, mousePress := false }
        else { s1 with strokeIndex := s1.strokeIndex + 1 }
      let evs4 := evs3 ++ (if isFinal then [.release] else [])
      if s2.isDrawing then .ok s2 evs4 true
      else .ok { s2 with mousePress := false } (evs4 ++ [.release]) false

/-- Slot `StrokeDrawing.draw`: set the drawing flag and the velocity; if the
stroke index is past the list, stop and report no more work; otherwise
select the stroke's colour when it differs from the active one
(`select_colour` raises `IndexError f'Colour not found ...'` when the
colour has no swatch — the raise escapes the slot, so the state keeps the
mutations made before it) and — in the same invocation — draw the current
segment. -/
def draw (s0 : EngineState) (v : Int) : DrawResult :=
  let s := { s0 with isDrawing := true, velocity := v }
  match s.strokes[s.index]? with
  | none =>
    .ok { s with isDrawing := false, mousePress := false } [.release] false
  | some cp =>
    if s.activeColour.all (fun a => decide (a ≠ cp.1)) then
      match s.colours.lookup cp.1 with
      | none => .err (.colourNotFound cp.1) s []
      | some b =>
        let c := swatchCenter b
        drawSegment { s with activeColour := some cp.1 }
          [.move c.1 c.2, .click] cp.2
    else
      drawSegment s [] cp.2

/-! ### Spec-side definitions and concrete test fixtures -/

/-- The claim's background test, following the spec's words ("≥95% of its
pixels are near-white"), for comparison with the code's `rowIsBg`:
`count / w ≥ 19/20  ↔  19·w ≤ 20·count`. -/
def rowIsBg95 (img : Img) (y : Nat) : Bool :=
  decide (19 * img.w ≤ 20 * rowLightCount img y)

/-- The claim's column background test ("≥95% near-white"). -/
def colIsBg95 (img : Img) (x : Nat) : Bool :=
  decide (19 * img.h ≤ 20 * colLightCount img x)

/-- A 2×2 raster of pure white pixels. -/
def whiteImg : Img := ⟨2, 2, fun _ _ => (255, 255, 255)⟩

/-- The claim's swatch click box, following the spec's words: two rows of
`NUM_COLOURS` swatches positioned relative to the discovered canvas box,
measured up from its *bottom* edge. -/
def specSwatchBox (canvasBox : Box) (row col : Nat) : Box :=
  ⟨canvasBox.x1 + ((COLOUR_X_START : Int) + (col : Int) * COLOUR_WIDTH),
   canvasBox.y2 - ((row : Int) + 1) * COLOUR_HEIGHT,
   canvasBox.x1 + ((COLOUR_X_START : Int) + ((col : Int) + 1) * COLOUR_WIDTH),
   canvasBox.y2 - (row : Int) * COLOUR_HEIGHT⟩

/-- The 368×60 test raster: five dark rows above an all-white region, so
the discovered canvas box is `(0, 5, 368, 60)` — its crop starts below the
snip origin. -/
def cimg : Img := ⟨60, 368, fun y _ => if y < 5 then (0, 0, 0) else (255, 255, 255)⟩

/-- A mid-list engine state whose current stroke colour (1,2,3) differs
from the active colour (none yet active). -/
def exState2 : EngineState :=
  { initState with
    colours := [((1, 2, 3), ⟨10, 20, 30, 40⟩)],
    strokes := [((1, 2, 3), [(0, 0), (4, 0)])] }

/-- An engine state mid-run with a pressed mouse and an empty colour
mapping. -/
def exState5 : EngineState :=
  { initState with strokes := [((9, 9, 9), [(0, 0), (1, 1)])], mousePress := true }

/-- A mid-run state: one stroke already completed, the point index inside a
polygon, a recorded active colour. -/
def exState6 : EngineState :=
  { initState with
    strokes := [((5, 5, 5), [(0, 0), (1, 1)])],
    index := 1, strokeIndex := 1, activeColour := some (5, 5, 5),
    isDrawing := true }

/-- The public-operation sequence of the claim: install a swatch and a
4-vertex polygon, run two `draw` steps (point index reaches 2), `stop`
mid-polygon, then — while idle — install a new stroke list whose first
polygon has only 2 vertices.  `stop` and `set_strokes` both leave
`_stroke_index` untouched. -/
def exState10 : EngineState :=
  set_strokes
    ((stop ((draw ((draw (set_strokes
        (set_colours initState [((7, 7, 7), ⟨0, 0, 24, 24⟩)])
        [((7, 7, 7), [[(0, 0), (10, 0), (10, 10), (0, 10)]])]) 100).state) 100).state)).1)
    [((7, 7, 7), [[(0, 0), (5, 5)]])]


/-! ### Scan characterization lemmas -/

theorem scanUpAux_le (bg : Nat → Bool) (fuel lo : Nat) :
    scanUpAux bg fuel lo ≤ lo + fuel := by
  induction fuel generalizing lo with
  | zero => simp [scanUpAux]
  | succ n ih =>
    simp only [scanUpAux]
    by_cases h : bg lo = true
    · simp only [h, if_true]
      have := ih (lo + 1)
      omega
    · simp only [h, Bool.false_eq_true, if_false]
      omega

theorem scanUpAux_ge (bg : Nat → Bool) (fuel lo : Nat) :
    lo ≤ scanUpAux bg fuel lo := by
  induction fuel generalizing lo with
  | zero => simp [scanUpAux]
  | succ n ih =>
    simp only [scanUpAux]
    by_cases h : bg lo = true
    · simp only [h, if_true]
      have := ih (lo + 1)
      omega
    · simp [h]

theorem scanUpAux_bg_below (bg : Nat → Bool) (fuel lo : Nat) :
    ∀ i, lo ≤ i → i < scanUpAux bg fuel lo → bg i = true := by
  induction fuel generalizing lo with
  | zero => intro i h1 h2; simp [scanUpAux] at h2; omega
  | succ n ih =>
    intro i h1 h2
    simp only [scanUpAux] at h2
    by_cases h : bg lo = true
    · simp only [h, if_true] at h2
      rcases Nat.eq_or_lt_of_le h1 with rfl | hlt
      · exact h
      · exact ih (lo + 1) i hlt h2
    · simp only [h, Bool.false_eq_true, if_false] at h2; omega

theorem scanUpAux_stop (bg : Nat → Bool) (fuel lo : Nat)
    (h : scanUpAux bg fuel lo < lo + fuel) :
    bg (scanUpAux bg fuel lo) = false := by
  induction fuel generalizing lo with
  | zero => simp [scanUpAux] at h
  | succ n ih =>
    simp only [scanUpAux] at h ⊢
    by_cases hb : bg lo = true
    · simp only [hb, if_true] at h ⊢
      exact ih (lo + 1) (by omega)
    · simp only [hb, Bool.false_eq_true, if_false] at h ⊢

theorem scanDownAux_le (bg : Nat → Bool) (fuel hi : Nat) :
    scanDownAux bg fuel hi ≤ hi := by
  induction fuel generalizing hi with
  | zero => simp [scanDownAux]
  | succ n ih =>
    simp only [scanDownAux]
    by_cases h : bg (hi - 1) = true
    · simp only [h, if_true]
      have := ih (hi - 1)
      omega
    · simp [h]

theorem scanDownAux_ge (bg : Nat → Bool) (fuel hi : Nat) :
    hi - fuel ≤ scanDownAux bg fuel hi := by
  induction fuel generalizing hi with
  | zero => simp [scanDownAux]
  | succ n ih =>
    simp only [scanDownAux]
    by_cases h : bg (hi - 1) = true
    · simp only [h, if_true]
      have := ih (hi - 1)
      omega
    · simp only [h, Bool.false_eq_true, if_false]
      omega

theorem scanDownAux_bg_above (bg : Nat → Bool) (fuel hi : Nat) :
    ∀ i, scanDownAux bg fuel hi ≤ i → i < hi → bg i = true := by
  induction fuel generalizing hi with
  | zero => intro i h1 h2; simp [scanDownAux] at h1; omega
  | succ n ih =>
    intro i h1 h2
    simp only [scanDownAux] at h1
    by_cases h : bg (hi - 1) = true
    · simp only [h, if_true] at h1
      by_cases hi' : i < hi - 1
      · exact ih (hi - 1) i h1 hi'
      · have : i = hi - 1 := by omega
        exact this ▸ h
    · simp only [h, Bool.false_eq_true, if_false] at h1; omega

theorem scanDownAux_stop (bg : Nat → Bool) (fuel hi : Nat)
    (h : hi - fuel < scanDownAux bg fuel hi) :
    bg (scanDownAux bg fuel hi - 1) = false := by
  induction fuel generalizing hi with
  | zero => simp [scanDownAux] at h
  | succ n ih =>
    simp only [scanDownAux] at h ⊢
    by_cases hb : bg (hi - 1) = true
    · simp only [hb, if_true] at h ⊢
      exact ih (hi - 1) (by omega)
    · simp only [hb, Bool.false_eq_true, if_false] at h ⊢

theorem canvasTop_le (img : Img) : canvasTop img ≤ img.h := by
  have := scanUpAux_le (rowIsBg img) (img.h - 0) 0
  simpa [canvasTop, scanUp] using this

theorem canvasBottom_ge (img : Img) : canvasTop img ≤ canvasBottom img := by
  have h1 := scanDownAux_ge (rowIsBg img) (img.h - canvasTop img) img.h
  have h2 := canvasTop_le img
  simp only [canvasBottom, scanDown]
  omega

theorem canvasBottom_le (img : Img) : canvasBottom img ≤ img.h :=
  scanDownAux_le _ _ _

theorem canvasLeft_le (img : Img) : canvasLeft img ≤ img.w := by
  have := scanUpAux_le (colIsBg img) (img.w - 0) 0
  simpa [canvasLeft, scanUp] using this

theorem canvasRight_ge (img : Img) : canvasLeft img ≤ canvasRight img := by
  have h1 := scanDownAux_ge (colIsBg img) (img.w - canvasLeft img) img.w
  have h2 := canvasLeft_le img
  simp only [canvasRight, scanDown]
  omega

theorem canvasRight_le (img : Img) : canvasRight img ≤ img.w :=
  scanDownAux_le _ _ _

/-! ### Nearest-neighbour helper lemmas -/

theorem nearestIdxAux_lt (p : Pixel) (rest : List Pixel) :
    ∀ i best bestD, best < i →
      nearestIdxAux p rest i best bestD < i + rest.length := by
  induction rest with
  | nil => intro i best bestD h; simp only [nearestIdxAux, List.length_nil]; omega
  | cons c cs ih =>
    intro i best bestD h
    simp only [nearestIdxAux, List.length_cons]
    by_cases hd : distSq p c < bestD
    · simp only [hd, if_true]
      have := ih (i + 1) i (distSq p c) (Nat.lt_succ_self i)
      omega
    · simp only [hd, if_false]
      have := ih (i + 1) best bestD (by omega)
      omega

theorem nearestIdx_lt (p : Pixel) (palette : List Pixel) (h : palette ≠ []) :
    nearestIdx p palette < palette.length := by
  cases palette with
  | nil => exact absurd rfl h
  | cons c cs =>
    have := nearestIdxAux_lt p cs 1 0 (distSq p c) Nat.one_pos
    simp only [nearestIdx, List.length_cons]
    omega

theorem quantisePixels_mem (palette : List Pixel) (img : Img)
    (h : palette ≠ []) (y x : Nat) :
    (quantisePixels palette img).pix y x ∈ palette := by
  have hlt := nearestIdx_lt (img.pix y x) palette h
  simp only [quantisePixels]
  rw [List.getD_eq_getElem _ _ hlt]
  exact List.getElem_mem hlt

/-! ### Claim C9 — quantizer output is palette-contained, dimensions match
the transparency mask -/

/-- C9: for every non-empty palette and every input, each pixel of the
quantizer's output is a colour of the supplied palette, and the output
raster has the transparency mask's dimensions.  `rgbImg` is the
alpha-removed downscaled image fed to `quantise` (the white-background
compositing is floating-point library code; only its size preservation,
hypotheses `hh`/`hw`, is used), `small` the LANCZOS `0.2`-shrink `quantise`
performs internally. -/
theorem quantise_output_in_palette (palette : List Pixel) (rgba : RGBAImg)
    (rgbImg small : Img) (hp : palette ≠ [])
    (hh : rgbImg.h = rgba.h) (hw : rgbImg.w = rgba.w) :
    (∀ y x, (quantise palette rgbImg small).pix y x ∈ palette)
    ∧ (quantise palette rgbImg small).h = (alphaMask rgba).h
    ∧ (quantise palette rgbImg small).w = (alphaMask rgba).w := by
  refine ⟨fun y x => ?_, by simp [quantise, resizeNearest, alphaMask, hh], by simp [quantise, resizeNearest, alphaMask, hw]⟩
  simp only [quantise, resizeNearest]
  exact quantisePixels_mem palette small hp _ _

/-- Witness for C9 at a concrete input. -/
theorem quantise_output_in_palette_witness :
    (([((1 : Nat), (2 : Nat), (3 : Nat))] : List Pixel) ≠ [])
    ∧ ((∀ y x, (quantise [(1, 2, 3)] ⟨1, 1, fun _ _ => (1, 2, 3)⟩
          ⟨1, 1, fun _ _ => (1, 2, 3)⟩).pix y x ∈ ([(1, 2, 3)] : List Pixel))
       ∧ (quantise [(1, 2, 3)] ⟨1, 1, fun _ _ => (1, 2, 3)⟩
            ⟨1, 1, fun _ _ => (1, 2, 3)⟩).h
          = (alphaMask ⟨1, 1, fun _ _ => (1, 2, 3, 255)⟩).h
       ∧ (quantise [(1, 2, 3)] ⟨1, 1, fun _ _ => (1, 2, 3)⟩
            ⟨1, 1, fun _ _ => (1, 2, 3)⟩).w
          = (alphaMask ⟨1, 1, fun _ _ => (1, 2, 3, 255)⟩).w) :=
  ⟨by decide,
   quantise_output_in_palette [(1, 2, 3)] ⟨1, 1, fun _ _ => (1, 2, 3, 255)⟩
     ⟨1, 1, fun _ _ => (1, 2, 3)⟩ ⟨1, 1, fun _ _ => (1, 2, 3)⟩
     (by decide) rfl rfl⟩

/-! ### Claim C3 — the quantizer does not use Lab distance

`quantise` is documented in-source as nearest-neighbour "in Lab space"
(`# Then KDTree in Lab space`, variables `image_lab` / `palette_lab`), but
the `rgb2lab` conversions are commented out, so the match runs on scaled
RGB.  At the pixel `(13, 186, 200)` with palette
`[(13, 144, 212), (135, 226, 236)]` the RGB nearest neighbour is the first
palette colour (squared distances 1908 < 17780) while the CIELAB nearest
neighbour is the second (squared Lab distances ≈ 1484 vs ≈ 343). -/

/-- C3: evaluation of the embedded quantizer at the failing input — it
returns the RGB-nearest colour `(13, 144, 212)`, not the Lab-nearest
`(135, 226, 236)`. -/
theorem quantise_uses_rgb_not_lab :
    (quantise [(13, 144, 212), (135, 226, 236)]
        ⟨1, 1, fun _ _ => (13, 186, 200)⟩
        ⟨1, 1, fun _ _ => (13, 186, 200)⟩).pix 0 0 = (13, 144, 212)
    ∧ distSq (13, 186, 200) (13, 144, 212)
        < distSq (13, 186, 200) (135, 226, 236) := by
  constructor
  · rfl
  · decide

/-! ### Claim C4 — stroke planner cap -/

/-- C4 counterexample: a single-colour input with 41 polygons.  The `[:40]`
slice in `_set_content` truncates the list of per-colour groups, not the
flattened stroke list, so all 41 polygons survive planning and the claimed
40-stroke cap is violated. -/
theorem planner_cap_counterexample :
    (plannedStrokes [((1, 1, 1), List.replicate 41 [((0 : Int), (0 : Int))])]).length = 41
    ∧ ¬ (plannedStrokes [((1, 1, 1), List.replicate 41 [((0 : Int), (0 : Int))])]).length ≤ 40
    ∧ (([((1, 1, 1), List.replicate 41 [((0 : Int), (0 : Int))])] :
        List (Pixel × List (List Point))).map (fun g => g.2.length)).sum = 41 := by
  refine ⟨rfl, by decide, rfl⟩

/-- C4 amended: the flattened stroke count equals the sum of polygon counts
over the first 40 per-colour groups (the cap is applied to colour groups
before flattening, so the flattened list itself is not capped at 40). -/
theorem planner_flatten_count (groups : List (Pixel × List (List Point))) :
    (plannedStrokes groups).length
      = ((groups.take 40).map (fun g => g.2.length)).sum := by
  simp [plannedStrokes, flattenStrokes, Function.comp_def, List.length_map]

/-! ### Claim C8 — mutators are silent no-ops while a run is in progress -/

/-- C8: while `isDrawing` is set, `set_strokes`, `set_canvas` and
`set_colours` return the state completely unchanged. -/
theorem mutators_noop_while_drawing (s : EngineState)
    (groups : List (Pixel × List (List Point))) (c : Box)
    (cs : List (Pixel × Box)) (h : s.isDrawing = true) :
    set_strokes s groups = s ∧ set_canvas s c = s ∧ set_colours s cs = s := by
  simp [set_strokes, set_canvas, set_colours, h]

/-- Witness for C8 at a concrete mid-run state. -/
theorem mutators_noop_while_drawing_witness :
    ({ initState with isDrawing := true } : EngineState).isDrawing = true
    ∧ (set_strokes { initState with isDrawing := true }
         [((1, 1, 1), [[((0 : Int), (0 : Int))]])] = { initState with isDrawing := true }
       ∧ set_canvas { initState with isDrawing := true } ⟨1, 2, 3, 4⟩
           = { initState with isDrawing := true }
       ∧ set_colours { initState with isDrawing := true } [((5, 5, 5), ⟨0, 0, 1, 1⟩)]
           = { initState with isDrawing := true }) :=
  ⟨rfl, mutators_noop_while_drawing _ _ _ _ rfl⟩

/-! ### Engine step characterization -/

/-- Unfolding of `drawSegment` when the point index is in range: the start
vertex is moved to, the mouse pressed if necessary, the end vertex (wrapping
to vertex 0 on the final segment) moved to, and the indices advanced. -/
theorem drawSegment_eq (s : EngineState) (evs0 : List MouseEvent)
    (pts : List Point) (hd : s.isDrawing = true)
    (hp : s.strokeIndex < pts.length) :
    drawSegment s evs0 pts = .ok
      { s with
        mousePress := !decide (pts.length ≤ s.strokeIndex + 1),
        index := if pts.length ≤ s.strokeIndex + 1 then s.index + 1 else s.index,
        strokeIndex := if pts.length ≤ s.strokeIndex + 1 then 0 else s.strokeIndex + 1 }
      (evs0
        ++ [.move (s.canvas.x1 + (pts.getD s.strokeIndex (0, 0)).1)
                  (s.canvas.y1 + (pts.getD s.strokeIndex (0, 0)).2)]
        ++ (if s.mousePress then [] else [.press])
        ++ [.move (s.canvas.x1 + (pts.getD (if pts.length ≤ s.strokeIndex + 1 then 0
                      else s.strokeIndex + 1) (0, 0)).1)
                  (s.canvas.y1 + (pts.getD (if pts.length ≤ s.strokeIndex + 1 then 0
                      else s.strokeIndex + 1) (0, 0)).2)]
        ++ (if pts.length ≤ s.strokeIndex + 1 then [.release] else []))
      true := by
  have hstart : pts[s.strokeIndex]? = some (pts.getD s.strokeIndex (0, 0)) := by
    rw [List.getElem?_eq_getElem hp, List.getD_eq_getElem _ _ hp]
  by_cases hf : pts.length ≤ s.strokeIndex + 1
  · have h0 : 0 < pts.length := by omega
    have hstop : pts[0]? = some (pts.getD 0 (0, 0)) := by
      rw [List.getElem?_eq_getElem h0, List.getD_eq_getElem _ _ h0]
    by_cases hm : s.mousePress = true
    · simp only [drawSegment, hstart, hstop, hf, hm, hd, decide_True, decide_False,
        Bool.not_true, Bool.not_false, Bool.false_eq_true, if_true, if_false,
        List.append_nil]
    · simp only [drawSegment, hstart, hstop, hf, hm, hd, decide_True, decide_False,
        Bool.not_true, Bool.not_false, Bool.false_eq_true, if_true, if_false,
        List.append_nil]
  · have h1 : s.strokeIndex + 1 < pts.length := by omega
    have hstop : pts[s.strokeIndex + 1]? = some (pts.getD (s.strokeIndex + 1) (0, 0)) := by
      rw [List.getElem?_eq_getElem h1, List.getD_eq_getElem _ _ h1]
    by_cases hm : s.mousePress = true
    · simp only [drawSegment, hstart, hstop, hf, hm, hd, decide_True, decide_False,
        Bool.not_true, Bool.not_false, Bool.false_eq_true, if_true, if_false,
        List.append_nil]
    · simp only [drawSegment, hstart, hstop, hf, hm, hd, decide_True, decide_False,
        Bool.not_true, Bool.not_false, Bool.false_eq_true, if_true, if_false,
        List.append_nil]

/-! ### Claim C2 — a colour-changing step also draws a segment -/

/-- C2 amended: when the current stroke's colour differs from the active
colour (or none is active) and its swatch exists, one `draw` invocation
performs the colour select (move to the swatch centre, click, record the
colour) and then, in the same invocation, also draws the current segment
and advances the stroke/point index — emitting the select primitives plus
the segment primitives, not exactly one. -/
theorem colour_select_step_behaviour (s : EngineState) (v : Int)
    (colour : Pixel) (pts : List Point) (b : Box)
    (hs : s.strokes[s.index]? = some (colour, pts))
    (ha : s.activeColour.all (fun a => decide (a ≠ colour)) = true)
    (hb : s.colours.lookup colour = some b)
    (hp : s.strokeIndex < pts.length) :
    draw s v = .ok
      { s with
        isDrawing := true, velocity := v, activeColour := some colour,
        mousePress := !decide (pts.length ≤ s.strokeIndex + 1),
        index := if pts.length ≤ s.strokeIndex + 1 then s.index + 1 else s.index,
        strokeIndex := if pts.length ≤ s.strokeIndex + 1 then 0 else s.strokeIndex + 1 }
      ([.move (swatchCenter b).1 (swatchCenter b).2, .click]
        ++ [.move (s.canvas.x1 + (pts.getD s.strokeIndex (0, 0)).1)
                  (s.canvas.y1 + (pts.getD s.strokeIndex (0, 0)).2)]
        ++ (if s.mousePress then [] else [.press])
        ++ [.move (s.canvas.x1 + (pts.getD (if pts.length ≤ s.strokeIndex + 1 then 0
                      else s.strokeIndex + 1) (0, 0)).1)
                  (s.canvas.y1 + (pts.getD (if pts.length ≤ s.strokeIndex + 1 then 0
                      else s.strokeIndex + 1) (0, 0)).2)]
        ++ (if pts.length ≤ s.strokeIndex + 1 then [.release] else []))
      true := by
  have hseg := drawSegment_eq
    { s with isDrawing := true, velocity := v, activeColour := some colour }
    [.move (swatchCenter b).1 (swatchCenter b).2, .click] pts rfl hp
  simp only [draw, hs, ha, hb, if_true]
  simpa using hseg

/-- C2 counterexample: at `exState2` the colour differs from the active
colour, yet the single `draw` invocation advances the point index from 0
to 1 and emits five mouse primitives (swatch move, click, segment move,
press, segment move), not exactly one with no index change. -/
theorem colour_select_step_counterexample :
    (exState2.strokes[exState2.index]?).map Prod.fst = some (1, 2, 3)
    ∧ exState2.activeColour = none
    ∧ (draw exState2 100).state.strokeIndex = 1
    ∧ (draw exState2 100).state.index = 0
    ∧ (draw exState2 100).events.length = 5 :=
  ⟨rfl, rfl, rfl, rfl, rfl⟩

/-- Witness for C2's amended theorem at `exState2`. -/
theorem colour_select_step_behaviour_witness :
    exState2.strokes[exState2.index]? = some ((1, 2, 3), [(0, 0), (4, 0)])
    ∧ exState2.activeColour.all (fun a => decide (a ≠ (1, 2, 3))) = true
    ∧ exState2.colours.lookup (1, 2, 3) = some ⟨10, 20, 30, 40⟩
    ∧ exState2.strokeIndex < ([(0, 0), (4, 0)] : List Point).length
    ∧ draw exState2 100 = .ok
      { exState2 with
        isDrawing := true, velocity := 100, activeColour := some (1, 2, 3),
        mousePress := !decide (([(0, 0), (4, 0)] : List Point).length ≤ exState2.strokeIndex + 1),
        index := if ([(0, 0), (4, 0)] : List Point).length ≤ exState2.strokeIndex + 1
          then exState2.index + 1 else exState2.index,
        strokeIndex := if ([(0, 0), (4, 0)] : List Point).length ≤ exState2.strokeIndex + 1
          then 0 else exState2.strokeIndex + 1 }
      ([.move (swatchCenter ⟨10, 20, 30, 40⟩).1 (swatchCenter ⟨10, 20, 30, 40⟩).2, .click]
        ++ [.move (exState2.canvas.x1 + (([(0, 0), (4, 0)] : List Point).getD exState2.strokeIndex (0, 0)).1)
                  (exState2.canvas.y1 + (([(0, 0), (4, 0)] : List Point).getD exState2.strokeIndex (0, 0)).2)]
        ++ (if exState2.mousePress then [] else [.press])
        ++ [.move (exState2.canvas.x1 + (([(0, 0), (4, 0)] : List Point).getD
                    (if ([(0, 0), (4, 0)] : List Point).length ≤ exState2.strokeIndex + 1 then 0
                      else exState2.strokeIndex + 1) (0, 0)).1)
                  (exState2.canvas.y1 + (([(0, 0), (4, 0)] : List Point).getD
                    (if ([(0, 0), (4, 0)] : List Point).length ≤ exState2.strokeIndex + 1 then 0
                      else exState2.strokeIndex + 1) (0, 0)).2)]
        ++ (if ([(0, 0), (4, 0)] : List Point).length ≤ exState2.strokeIndex + 1
            then [.release] else []))
      true :=
  ⟨rfl, rfl, rfl, by decide,
   colour_select_step_behaviour exState2 100 (1, 2, 3) [(0, 0), (4, 0)]
     ⟨10, 20, 30, 40⟩ rfl rfl rfl (by decide)⟩

/-! ### Claim C5 — missing swatch aborts the step, but without a release -/

/-- C5 amended: when the current stroke's colour differs from the active
colour and has no swatch in the mapping, `draw` aborts by raising
`IndexError` carrying the unmatched colour; the stroke is not skipped (the
indices are unchanged in the escaped state) — but no mouse primitive is
emitted, so the mouse is *not* released and the press flag keeps its
value. -/
theorem missing_swatch_aborts (s : EngineState) (v : Int)
    (colour : Pixel) (pts : List Point)
    (hs : s.strokes[s.index]? = some (colour, pts))
    (ha : s.activeColour.all (fun a => decide (a ≠ colour)) = true)
    (hl : s.colours.lookup colour = none) :
    draw s v = .err (.colourNotFound colour)
      { s with isDrawing := true, velocity := v } [] := by
  simp only [draw, hs, ha, hl, if_true]

/-- C5 counterexample: at `exState5` the unmatched colour is surfaced and
the stroke is not skipped, but no `release` primitive is emitted and the
press flag stays set — the claim's "releases the mouse" is false. -/
theorem missing_swatch_mouse_not_released :
    (draw exState5 100).error = some (.colourNotFound (9, 9, 9))
    ∧ (draw exState5 100).state.mousePress = true
    ∧ (draw exState5 100).state.index = 0
    ∧ (draw exState5 100).state.strokeIndex = 0
    ∧ MouseEvent.release ∉ (draw exState5 100).events := by
  decide

/-- Witness for C5's amended theorem at `exState5`. -/
theorem missing_swatch_aborts_witness :
    exState5.strokes[exState5.index]? = some ((9, 9, 9), [(0, 0), (1, 1)])
    ∧ exState5.activeColour.all (fun a => decide (a ≠ (9, 9, 9))) = true
    ∧ exState5.colours.lookup (9, 9, 9) = none
    ∧ draw exState5 100 = .err (.colourNotFound (9, 9, 9))
        { exState5 with isDrawing := true, velocity := 100 } [] :=
  ⟨rfl, rfl, rfl, missing_swatch_aborts exState5 100 (9, 9, 9) [(0, 0), (1, 1)] rfl rfl rfl⟩

/-! ### Claim C6 — the deferred reset never happens -/

/-- C6: `reset` while idle zeroes the indices and the active colour
immediately (first conjunct), but a `reset` issued mid-run only sets
`_reset_flag` and clears `_is_drawing`; the flag is never read again, so
when the next `draw` step finishes the run the indices and active colour
are all still in place and the flag is still set — the claimed deferred
zeroing never occurs. -/
theorem deferred_reset_never_zeroes :
    reset { initState with index := 3, strokeIndex := 2, activeColour := some (5, 5, 5) }
      = initState
    ∧ reset exState6 = { exState6 with resetFlag := true, isDrawing := false }
    ∧ (draw (reset exState6) 100).error = none
    ∧ (draw (reset exState6) 100).state.isDrawing = false
    ∧ (draw (reset exState6) 100).state.index = 1
    ∧ (draw (reset exState6) 100).state.strokeIndex = 1
    ∧ (draw (reset exState6) 100).state.activeColour = some (5, 5, 5)
    ∧ (draw (reset exState6) 100).state.resetFlag = true := by
  decide

/-! ### Claim C10 — a stale point index runs past a new stroke list -/

/-- C10: after the sequence above the retained point index (2) is out of
bounds for the new current polygon (2 vertices), and the next `draw` step
raises `IndexError` — the claimed in-bounds safety fails. -/
theorem stale_point_index_out_of_bounds :
    exState10.index = 0
    ∧ exState10.strokeIndex = 2
    ∧ exState10.strokes.map (fun cp => cp.2.length) = [2]
    ∧ (draw exState10 100).error = some .indexError := by
  decide

/-! ### Claim C1 — canvas locator background test -/

/-- C1 counterexample: on an all-white 2×2 image every row and column is
background under the claim's ≥95%-near-white test, yet the scan stops
immediately at every edge and returns the full frame — because the code
treats a line as background exactly when *fewer than 5%* of its pixels are
near-white, the opposite direction.  Row 0 is 100% near-white and the code
classifies it as non-background. -/
theorem background_threshold_counterexample :
    (find_canvas whiteImg 0 0).1 = ⟨0, 0, 2, 2⟩
    ∧ (List.range 2).all (rowIsBg95 whiteImg) = true
    ∧ (List.range 2).all (colIsBg95 whiteImg) = true
    ∧ rowIsBg whiteImg 0 = false
    ∧ colIsBg whiteImg 0 = false := by
  decide

/-- C1 amended: the scan from each edge skips exactly the lines with fewer
than 5% near-white pixels (the code's `rowIsBg`/`colIsBg`, note the
column test runs over the column of the *full* crop): every line strictly
outside the returned box is background in that sense, and each edge of the
box is the first line from its side failing the test — unless the scan
met the opposite pointer (`top = h`, `bottom = top`, `left = w`,
`right = left`). -/
theorem canvas_box_first_non_background (img : Img) (xo yo : Int) :
    (find_canvas img xo yo).1 =
      ⟨xo + canvasLeft img, yo + canvasTop img,
       xo + canvasRight img, yo + canvasBottom img⟩
    ∧ canvasTop img ≤ canvasBottom img ∧ canvasBottom img ≤ img.h
    ∧ canvasLeft img ≤ canvasRight img ∧ canvasRight img ≤ img.w
    ∧ (List.range (canvasTop img)).all (rowIsBg img) = true
    ∧ (canvasTop img = img.h ∨ rowIsBg img (canvasTop img) = false)
    ∧ (List.range (img.h - canvasBottom img)).all
        (fun i => rowIsBg img (canvasBottom img + i)) = true
    ∧ (canvasBottom img = canvasTop img ∨ rowIsBg img (canvasBottom img - 1) = false)
    ∧ (List.range (canvasLeft img)).all (colIsBg img) = true
    ∧ (canvasLeft img = img.w ∨ colIsBg img (canvasLeft img) = false)
    ∧ (List.range (img.w - canvasRight img)).all
        (fun i => colIsBg img (canvasRight img + i)) = true
    ∧ (canvasRight img = canvasLeft img ∨ colIsBg img (canvasRight img - 1) = false) := by
  have htople := canvasTop_le img
  have hbotge := canvasBottom_ge img
  have hbotle := canvasBottom_le img
  have hleftle := canvasLeft_le img
  have hrightge := canvasRight_ge img
  have hrightle := canvasRight_le img
  refine ⟨rfl, hbotge, hbotle, hrightge, hrightle, ?_, ?_, ?_, ?_, ?_, ?_, ?_, ?_⟩
  · rw [List.all_eq_true]
    intro i hi
    exact scanUpAux_bg_below (rowIsBg img) (img.h - 0) 0 i (Nat.zero_le i)
      (List.mem_range.mp hi)
  · by_cases h : canvasTop img = img.h
    · exact Or.inl h
    · refine Or.inr (scanUpAux_stop (rowIsBg img) (img.h - 0) 0 ?_)
      have : canvasTop img < img.h := Nat.lt_of_le_of_ne htople h
      simpa using this
  · rw [List.all_eq_true]
    intro i hi
    have hi' := List.mem_range.mp hi
    exact scanDownAux_bg_above (rowIsBg img) (img.h - canvasTop img) img.h
      (canvasBottom img + i) (Nat.le_add_right _ _) (by omega)
  · by_cases h : canvasBottom img = canvasTop img
    · exact Or.inl h
    · refine Or.inr (scanDownAux_stop (rowIsBg img) (img.h - canvasTop img) img.h ?_)
      have hlt : canvasTop img < canvasBottom img := Nat.lt_of_le_of_ne hbotge (Ne.symm h)
      have heq : canvasBottom img = scanDownAux (rowIsBg img) (img.h - canvasTop img) img.h := rfl
      omega
  · rw [List.all_eq_true]
    intro i hi
    exact scanUpAux_bg_below (colIsBg img) (img.w - 0) 0 i (Nat.zero_le i)
      (List.mem_range.mp hi)
  · by_cases h : canvasLeft img = img.w
    · exact Or.inl h
    · refine Or.inr (scanUpAux_stop (colIsBg img) (img.w - 0) 0 ?_)
      have : canvasLeft img < img.w := Nat.lt_of_le_of_ne hleftle h
      simpa using this
  · rw [List.all_eq_true]
    intro i hi
    have hi' := List.mem_range.mp hi
    exact scanDownAux_bg_above (colIsBg img) (img.w - canvasLeft img) img.w
      (canvasRight img + i) (Nat.le_add_right _ _) (by omega)
  · by_cases h : canvasRight img = canvasLeft img
    · exact Or.inl h
    · refine Or.inr (scanDownAux_stop (colIsBg img) (img.w - canvasLeft img) img.w ?_)
      have hlt : canvasLeft img < canvasRight img := Nat.lt_of_le_of_ne hrightge (Ne.symm h)
      have heq : canvasRight img = scanDownAux (colIsBg img) (img.w - canvasLeft img) img.w := rfl
      omega

/-! ### Claim C7 — swatch click regions and colour sampling -/

theorem flatMap_congr_of_mem {α β : Type} (l : List α) (f g : α → List β)
    (h : ∀ a ∈ l, f a = g a) : l.flatMap f = l.flatMap g := by
  induction l with
  | nil => rfl
  | cons a t ih =>
    simp only [List.flatMap_cons]
    rw [h a (List.mem_cons_self a t), ih (fun b hb => h b (List.mem_cons_of_mem a hb))]

/-- C7 amended: the swatch colours are indeed sampled at each swatch's
visual centre of the cropped canvas, and the click boxes have the claimed
bottom-anchored grid geometry — but they are translated by the snip
region's origin `(xo, yo)` instead of the canvas box's origin: each
returned box is `specSwatchBox` shifted back by the crop offsets
`(canvasLeft, canvasTop)`.  (`48 ≤ crop height` keeps the bottom-anchored
row arithmetic nonnegative, as in the Python int computation.) -/
theorem swatch_boxes_anchored_at_snip_origin (img : Img) (xo yo : Int)
    (hc : 48 ≤ canvasBottom img - canvasTop img) :
    (find_canvas img xo yo).2 =
      (List.range 2).flatMap (fun row =>
        (List.range NUM_COLOURS).map (fun col =>
          ((cropImg img).pix
              ((canvasBottom img - canvasTop img) - (row + 1) * COLOUR_HEIGHT
                + COLOUR_HEIGHT / 2)
              (COLOUR_X_START + col * COLOUR_WIDTH + COLOUR_WIDTH / 2),
           ⟨(specSwatchBox (find_canvas img xo yo).1 row col).x1 - canvasLeft img,
            (specSwatchBox (find_canvas img xo yo).1 row col).y1 - canvasTop img,
            (specSwatchBox (find_canvas img xo yo).1 row col).x2 - canvasLeft img,
            (specSwatchBox (find_canvas img xo yo).1 row col).y2 - canvasTop img⟩))) := by
  have hbt := canvasBottom_ge img
  show get_colours (cropImg img) xo yo = _
  unfold get_colours
  refine flatMap_congr_of_mem _ _ _ (fun row hrow => ?_)
  have hrow2 : row < 2 := List.mem_range.mp hrow
  refine List.map_congr_left (fun col hcol => ?_)
  have hcol13 : col < NUM_COLOURS := List.mem_range.mp hcol
  refine congrArg₂ Prod.mk rfl ?_
  show Box.mk (xo + ((COLOUR_X_START : Nat) + col * COLOUR_WIDTH : Nat))
      (yo + ((cropImg img).h - (row + 1) * COLOUR_HEIGHT : Nat))
      (xo + ((COLOUR_X_START : Nat) + (col + 1) * COLOUR_WIDTH : Nat))
      (yo + ((cropImg img).h - row * COLOUR_HEIGHT : Nat)) = _
  have hh : (cropImg img).h = canvasBottom img - canvasTop img := rfl
  simp only [hh, specSwatchBox, find_canvas, Box.mk.injEq,
    COLOUR_X_START, COLOUR_WIDTH, COLOUR_HEIGHT, NUM_COLOURS] at *
  refine ⟨by omega, by omega, by omega, by omega⟩

set_option maxRecDepth 8000 in
/-- C7 counterexample: on `cimg` (canvas box `(0, 5, 368, 60)`) the first
returned swatch's click box is `(54, 31, 78, 55)`, but the box positioned
relative to the discovered canvas box, as the claim states, is
`(54, 36, 78, 60)`: the code anchors the boxes at the snip origin and drops
the crop's `top` offset. -/
theorem swatch_box_counterexample :
    (find_canvas cimg 0 0).1 = ⟨0, 5, 368, 60⟩
    ∧ ((find_canvas cimg 0 0).2.head?).map Prod.snd = some ⟨54, 31, 78, 55⟩
    ∧ specSwatchBox ⟨0, 5, 368, 60⟩ 0 0 = ⟨54, 36, 78, 60⟩
    ∧ some (⟨54, 31, 78, 55⟩ : Box) ≠ some (⟨54, 36, 78, 60⟩ : Box) := by
  refine ⟨by decide, by decide, by decide, by decide⟩

set_option maxRecDepth 8000 in
/-- Witness for C7's amended theorem at `cimg`. -/
theorem swatch_boxes_anchored_at_snip_origin_witness :
    48 ≤ canvasBottom cimg - canvasTop cimg
    ∧ (find_canvas cimg 0 0).2 =
      (List.range 2).flatMap (fun row =>
        (List.range NUM_COLOURS).map (fun col =>
          ((cropImg cimg).pix
              ((canvasBottom cimg - canvasTop cimg) - (row + 1) * COLOUR_HEIGHT
                + COLOUR_HEIGHT / 2)
              (COLOUR_X_START + col * COLOUR_WIDTH + COLOUR_WIDTH / 2),
           ⟨(specSwatchBox (find_canvas cimg 0 0).1 row col).x1 - canvasLeft cimg,
            (specSwatchBox (find_canvas cimg 0 0).1 row col).y1 - canvasTop cimg,
            (specSwatchBox (find_canvas cimg 0 0).1 row col).x2 - canvasLeft cimg,
            (specSwatchBox (find_canvas cimg 0 0).1 row col).y2 - canvasTop cimg⟩))) :=
  ⟨by decide, swatch_boxes_anchored_at_snip_origin cimg 0 0 (by decide)⟩

end Skribbl

